import Mathlib

/-!
Verification of the OBC_v5d flight-software mission-sequencing core.

Shallow embedding of the components under `src/flight-software`:
* the mission sequencer (FSM) driving the phase lifecycle,
* the phase bodies `StateAntennas`, `StateComms`, `StateOrient`,
* the command dispatcher `ExtendedCommandDataHandler` with `ExtendedConfig`,
* the telemetry loop `DataProcess.get_data_imu_av`.

Python floats are embedded as exact rationals / reals.  Exceptions are
embedded as `Option`, frames and logs as explicit output lists, and the
cooperative loops as functions over explicit lists of tick inputs.
-/

namespace OBC

/-! ## Mission sequencer (FSM)

`fsm/fsm.py` is not among the provided sources (only its callers
`repl.py` / `repl_ours.py` and the phase bodies are), so the sequencer
itself is modelled from the specification, §4.2. -/

/-- The six mission phases of §4.2. -/
inductive Phase
  | bootup
  | detumble
  | antennaDeploy
  | comms
  | payloadDeploy
  | orient
  deriving DecidableEq, Repr

/-- Sequencer state: active phase plus the two one-way milestone flags. -/
structure FSMState where
  phase : Phase
  antennas_deployed : Bool
  payload_deployed : Bool
  deriving DecidableEq, Repr

/-- The boot state: initial phase Bootup, no milestone reached. -/
def fsmInit : FSMState :=
  { phase := .bootup, antennas_deployed := false, payload_deployed := false }

/-- Modelled from the spec: `fsm/fsm.py` (class `FSM`, method
`execute_fsm_step`) is missing from the sources; this is the §4.2
transition table.  `isDone` is the value the sequencer polled from the
active phase's `is_done()`; when it is false the step is a no-op, when
it is true the phase advances per the table and the milestone flags are
updated as listed. -/
def execute_fsm_step (s : FSMState) (isDone : Bool) : FSMState :=
  if !isDone then s
  else
    match s.phase with
    | .bootup => { s with phase := .detumble }
    | .detumble => { s with phase := .antennaDeploy }
    | .antennaDeploy => { s with phase := .comms, antennas_deployed := true }
    | .comms =>
        if s.payload_deployed then { s with phase := .orient }
        else { s with phase := .payloadDeploy }
    | .payloadDeploy => { s with phase := .orient, payload_deployed := true }
    | .orient => { s with phase := .comms }

/-- States reachable from boot through any sequence of polled steps. -/
inductive FSMReachable : FSMState → Prop
  | init : FSMReachable fsmInit
  | step (s : FSMState) (b : Bool) :
      FSMReachable s → FSMReachable (execute_fsm_step s b)

/-! ## AntennaDeploy phase body (`state_processes/state_antennas.py`)

`StateAntennas.run` loops while `self.running`: each iteration sleeps,
fires `self.antenna_deployment.burn(5)` if `finished_burn` is still
false (then sets `finished_burn = True`), and sets `done = True`.
`stop()` sets `running = False`.  The burn-wire actuator effect is
recorded as a count of `burn` invocations. -/

/-- Phase-local state of a `StateAntennas` instance, plus the number of
times the instance has invoked `antenna_deployment.burn`. -/
structure AntennasState where
  finished_burn : Bool
  running : Bool
  done : Bool
  burns : Nat
  deriving DecidableEq, Repr

/-- `StateAntennas.__init__`: a fresh instance is unburned and not done. -/
def antennasInit : AntennasState :=
  { finished_burn := false, running := false, done := false, burns := 0 }

/-- Events that mutate a `StateAntennas` instance during its life: one
iteration of the `run()` while-loop body, or a call to `stop()`. -/
inductive AntEvent
  | tick
  | stop
  deriving DecidableEq, Repr

/-- One `run()` loop iteration (`state_antennas.py` lines 28-35): if the
loop guard `running` holds, burn once when `finished_burn` is false and
mark it true, then set `done`; if the guard fails the body does nothing.
`stop()` (lines 37-41) clears `running`. -/
def antennasStep (s : AntennasState) : AntEvent → AntennasState
  | .tick =>
      if s.running then
        let s1 :=
          if !s.finished_burn then
            { s with burns := s.burns + 1, finished_burn := true }
          else s
        { s1 with done := true }
      else s
  | .stop => { s with running := false }

/-- `run()` begins by setting `self.running = True`. -/
def antennasRunStart (s : AntennasState) : AntennasState :=
  { s with running := true }

/-- The state of a fresh instance whose `run()` has started, after the
given sequence of loop iterations and `stop()` calls. -/
def antennasExec (evs : List AntEvent) : AntennasState :=
  evs.foldl antennasStep (antennasRunStart antennasInit)

/-! ## Comms phase body (`state_processes/state_comms.py`) -/

/-- Attribute state of a `StateComms` instance.  `runningUnderscore`
embeds the Python attribute `_running` assigned by `run()`; it is a
distinct attribute from `running`, the one assigned by `stop()`. -/
structure CommsState where
  running : Bool
  runningUnderscore : Bool
  done : Bool
  deriving DecidableEq, Repr

/-- `StateComms.__init__` (lines 13-19): `running = False`,
`done = True`.  The `_running` attribute does not exist yet; it is first
assigned by `run()`, so it is embedded here as false. -/
def commsInit : CommsState :=
  { running := false, runningUnderscore := false, done := true }

/-- `StateComms.run` starts by assigning `self._running = True`
(line 22); the loop condition `while self._running` reads the same
attribute. -/
def commsRunStart (s : CommsState) : CommsState :=
  { s with runningUnderscore := true }

/-- One iteration of the `run()` loop body (lines 25-29): sleep, then
`self.done = True`. -/
def commsTick (s : CommsState) : CommsState :=
  { s with done := true }

/-- `StateComms.stop` (lines 31-35): assigns `self.running = False`.
It does not touch `_running`. -/
def commsStop (s : CommsState) : CommsState :=
  { s with running := false }

/-- The `run()` while-loop condition (line 25) reads `self._running`. -/
def commsLoopCondition (s : CommsState) : Bool :=
  s.runningUnderscore

/-- `StateComms.is_done` (lines 37-42): returns `self.done`. -/
def commsIsDone (s : CommsState) : Bool :=
  s.done

/-! ## Configuration (`fsm/ExtendedConfig.py`) and command dispatcher
(`fsm/ExtendedCDH.py`)

`ExtendedConfig` keeps the two orient keys as attributes and, for a
non-temporary update, also rewrites them in the backing JSON file; the
file copies are embedded as `file_*` fields.  The dispatcher's radio
sends, dispatched commands and log lines are collected into explicit
output lists.  Python `float(...)` string parsing is an external
primitive and is passed in as a `parse : String → Option ℚ` oracle
(`none` embeds the `ValueError` case). -/

/-- The configuration attributes read by the dispatcher, the two orient
keys, and their durable (JSON file) copies. -/
structure ConfigState where
  super_secret_code : String
  cubesat_name : String
  orient_payload_setting : Int
  orient_payload_periodic_time : ℚ
  file_setting : Int
  file_periodic : ℚ
  deriving DecidableEq, Repr

/-- A value passed to `update_config`: the orient setting is an `int`,
the periodic time a `float`. -/
inductive CVal
  | i (n : Int)
  | f (q : ℚ)
  deriving DecidableEq, Repr

/-- `ExtendedConfig.update_config` (lines 22-34): for the two orient
keys, set the attribute and, when not temporary, write the new value
into the JSON file; other keys fall through to the base class (which
does not touch the fields embedded here).  Observer callbacks receive
the update but mutate no configuration state. -/
def update_config (c : ConfigState) (key : String) (v : CVal)
    (temporary : Bool) : ConfigState :=
  if key = "orient_payload_setting" ∨ key = "orient_payload_periodic_time" then
    let c1 :=
      match key, v with
      | "orient_payload_setting", .i n => { c with orient_payload_setting := n }
      | "orient_payload_periodic_time", .f q =>
          { c with orient_payload_periodic_time := q }
      | _, _ => c
    if temporary then c1
    else
      match key, v with
      | "orient_payload_setting", .i n => { c1 with file_setting := n }
      | "orient_payload_periodic_time", .f q => { c1 with file_periodic := q }
      | _, _ => c1
  else c

/-- A decoded command message (`ExtendedCDH.py` lines 31-33): the JSON
fields read via `msg.get`, `none` embedding an absent key.  A non-list
`args` value is embedded as `none` as well, since the dispatcher then
keeps `args = []`. -/
structure Msg where
  password : Option String
  command : Option String
  args : Option (List String)
  name : Option String
  deriving DecidableEq, Repr

/-- A frame handed to `self._packet_manager` for transmission. -/
inductive Frame
  | ack
  | errNoOscarCommand
  | errNoCommand
  | errUnknownCommand (cmd : String)
  | orientResult (args : List String)
  deriving DecidableEq, Repr

/-- A command dispatched after authentication (the handlers live in the
base class or on other subsystems). -/
inductive Action
  | oscarDispatch (cmd : String) (args : List String)
  | resetAct
  | changeRadioModulation (args : List String)
  | sendJoke
  deriving DecidableEq, Repr

/-- Output of handling one received message: the configuration after the
call, the frames sent, the commands dispatched, and the log lines. -/
structure CDHOut where
  cfg : ConfigState
  frames : List Frame
  actions : List Action
  logs : List String
  deriving DecidableEq, Repr

/-- `ExtendedCommandDataHandler.set_orient_payload` (lines 116-133).
`parse` embeds Python `float(...)` on the period string (`none` is the
`ValueError`, caught by the `except` which logs and falls through to the
final send); `int(mode)` under the `mode ∈ {"0","1","2"}` guard is
embedded via `String.toNat?`.  Fewer than two arguments returns before
the final send. -/
def set_orient_payload (parse : String → Option ℚ) (c : ConfigState)
    (args : List String) : ConfigState × List Frame × List String :=
  if args.length < 2 then
    (c, [], ["Not enough arguments for orient_payload command."])
  else
    let mode := args.getD 0 ""
    let period := args.getD 1 ""
    let modeValid : Bool := decide (mode ∈ (["0", "1", "2"] : List String))
    let c1 :=
      if modeValid then
        update_config c "orient_payload_setting"
          (.i ((mode.toNat?).getD 0 : Int)) false
      else c
    let logs1 : List String :=
      if modeValid then [] else ["Invalid orient payload setting."]
    match parse period with
    | none =>
        (c1, [Frame.orientResult args],
          logs1 ++ ["Failed to change orient modulation"])
    | some q =>
        if 0 < q ∧ q ≤ 24 then
          (update_config c1 "orient_payload_periodic_time" (.f q) false,
            [Frame.orientResult args], logs1)
        else
          (c1, [Frame.orientResult args],
            logs1 ++ ["Invalid orient payload periodic time."])

/-- `ExtendedCommandDataHandler.listen_for_commands` (lines 18-114),
from the point where one frame has been received and decoded into
`msg`; `oscar` is the base class's fixed override secret.  Tier-1: the
override password acknowledges and dispatches against the override set.
Tier-2: a wrong standard password or wrong satellite name returns with
no send; otherwise acknowledge and dispatch `reset`,
`change_radio_modulation`, `send_joke` or `orient_payload`, sending an
error frame for an unknown command. -/
def listen_for_commands (oscar : String) (parse : String → Option ℚ)
    (c : ConfigState) (msg : Msg) : CDHOut :=
  if msg.password = some oscar then
    match msg.command with
    | none =>
        { cfg := c, frames := [Frame.errNoOscarCommand], actions := [],
          logs := ["No OSCAR command found in message"] }
    | some cmd =>
        { cfg := c, frames := [Frame.ack],
          actions := [Action.oscarDispatch cmd (msg.args.getD [])],
          logs := ["OSCAR command received"] }
  else if msg.password ≠ some c.super_secret_code then
    { cfg := c, frames := [], actions := [],
      logs := ["Invalid password in message"] }
  else if msg.name ≠ some c.cubesat_name then
    { cfg := c, frames := [], actions := [],
      logs := ["Satellite name mismatch in message"] }
  else
    match msg.command with
    | none =>
        { cfg := c, frames := [Frame.errNoCommand], actions := [],
          logs := ["No command found in message"] }
    | some cmd =>
        let args := msg.args.getD []
        if cmd = "orient_payload" then
          let r := set_orient_payload parse c args
          { cfg := r.1, frames := Frame.ack :: r.2.1, actions := [],
            logs := "Received command message" :: r.2.2 }
        else if cmd = "reset" then
          { cfg := c, frames := [Frame.ack], actions := [Action.resetAct],
            logs := ["Received command message"] }
        else if cmd = "change_radio_modulation" then
          { cfg := c, frames := [Frame.ack],
            actions := [Action.changeRadioModulation args],
            logs := ["Received command message"] }
        else if cmd = "send_joke" then
          { cfg := c, frames := [Frame.ack], actions := [Action.sendJoke],
            logs := ["Received command message"] }
        else
          { cfg := c, frames := [Frame.ack, Frame.errUnknownCommand cmd],
            actions := [],
            logs := ["Received command message", "Unknown command received"] }

/-! ## Orient phase body (`state_processes/state_orient.py`)

Sensor readings and the float arithmetic of the control tick are
embedded exactly.  The only irrational constant is `1/sqrt(2)` in the
four diagonal candidate directions, so every number the tick compares
lies in the quadratic field ℚ[√2]; `Q2` below is that field, with a
decidable order proved equal to the real order.  This keeps the whole
tick computable while the theorems speak about real dot products. -/

/-- An element `a + b·√2` of ℚ[√2]. -/
structure Q2 where
  a : ℚ
  b : ℚ
  deriving DecidableEq, Repr

namespace Q2

/-- Addition in ℚ[√2]. -/
def add (x y : Q2) : Q2 := ⟨x.a + y.a, x.b + y.b⟩

/-- Subtraction in ℚ[√2]. -/
def sub (x y : Q2) : Q2 := ⟨x.a - y.a, x.b - y.b⟩

/-- Scaling by a rational. -/
def smul (q : ℚ) (x : Q2) : Q2 := ⟨q * x.a, q * x.b⟩

/-- `a + b·√2 < 0`, decided by rational sign tests and squaring. -/
def isNeg (x : Q2) : Prop :=
  (x.b = 0 ∧ x.a < 0) ∨
  (0 < x.b ∧ x.a < 0 ∧ 2 * x.b ^ 2 < x.a ^ 2) ∨
  (x.b < 0 ∧ (x.a < 0 ∨ x.a ^ 2 < 2 * x.b ^ 2))

instance (x : Q2) : Decidable x.isNeg := by
  unfold isNeg
  infer_instance

/-- The strict order of ℚ[√2], as inherited from ℝ. -/
def lt (x y : Q2) : Prop := (sub x y).isNeg

instance (x y : Q2) : Decidable (lt x y) := by
  unfold lt
  infer_instance

/-- The real number an element of ℚ[√2] denotes. -/
noncomputable def toReal (x : Q2) : ℝ := (x.a : ℝ) + (x.b : ℝ) * Real.sqrt 2

end Q2

/-- `StateOrient.vector_mul_scalar` (lines 43-45) on rational pairs. -/
def vector_mul_scalar (v : ℚ × ℚ) (scalar : ℚ) : ℚ × ℚ :=
  (v.1 * scalar, v.2 * scalar)

/-- `StateOrient.vector_add` (lines 47-49) on rational pairs. -/
def vector_add (v1 v2 : ℚ × ℚ) : ℚ × ℚ :=
  (v1.1 + v2.1, v1.2 + v2.2)

/-- Step 1 of the tick (lines 69-78): the four `get_light()` calls sit
in a single `try`; `none` embeds a raised sensor fault.  If every read
succeeds the readings are used, otherwise the `except` replaces the
whole list with `[Light(0.0)] * 4`. -/
def lightsOf (r0 r1 r2 r3 : Option ℚ) : List ℚ :=
  match r0, r1, r2, r3 with
  | some l1, some l2, some l3, some l4 => [l1, l2, l3, l4]
  | _, _, _, _ => [0, 0, 0, 0]

/-- Steps 2-4 of the tick (lines 80-98): weight the four face normals
`[1,0], [-1,0], [0,1], [0,-1]` by the light readings and sum them into
the net sun vector. -/
def netOf (lights : List ℚ) : ℚ × ℚ :=
  let lightvecs : List (ℚ × ℚ) := [(1, 0), (-1, 0), (0, 1), (0, -1)]
  let weighted_vecs :=
    (List.range 4).map fun i =>
      vector_mul_scalar (lightvecs.getD i (0, 0)) (lights.getD i 0)
  weighted_vecs.foldl vector_add (0, 0)

/-- Step 5 (lines 102-107): the eight candidate pull directions, with
`1/sqrt(2) = 0 + (1/2)·√2` in ℚ[√2]. -/
def point_vecs : List (Q2 × Q2) :=
  [ (⟨1, 0⟩, ⟨0, 0⟩), (⟨-1, 0⟩, ⟨0, 0⟩), (⟨0, 0⟩, ⟨1, 0⟩), (⟨0, 0⟩, ⟨-1, 0⟩),
    (⟨0, 1/2⟩, ⟨0, 1/2⟩), (⟨0, 1/2⟩, ⟨0, -1/2⟩),
    (⟨0, -1/2⟩, ⟨0, 1/2⟩), (⟨0, -1/2⟩, ⟨0, -1/2⟩) ]

/-- The dot product of the (rational) net vector with a candidate
(line 114), valued in ℚ[√2]. -/
def dotQ (net : ℚ × ℚ) (c : Q2 × Q2) : Q2 :=
  (Q2.smul net.1 c.1).add (Q2.smul net.2 c.2)

/-- The eight dot products of step 6, in candidate order. -/
def dotList (net : ℚ × ℚ) : List Q2 :=
  point_vecs.map (dotQ net)

/-- The `for i in range(8)` maximum search of step 6 (lines 111-117):
`acc` is `(best_direction, max_dot_product)`, with `none` embedding the
initial `-float('inf')` (any finite dot product exceeds it); `k` is the
index of the first element of `l`. -/
def selectFrom : List Q2 → Nat → Nat × Option Q2 → Nat × Option Q2
  | [], _, acc => acc
  | d :: rest, k, acc =>
      let acc2 :=
        match acc.2 with
        | none => (k, some d)
        | some m => if Q2.lt m d then (k, some d) else acc
      selectFrom rest (k + 1) acc2

/-- `best_direction` after the step-6 loop, starting from
`best_direction = 0`, `max_dot_product = -inf`. -/
def bestDirection (net : ℚ × ℚ) : Nat :=
  (selectFrom (dotList net) 0 (0, none)).1

/-- The four actuator output lines driven by step 7. -/
structure Outputs where
  rx0 : Bool
  rx1 : Bool
  tx0 : Bool
  tx1 : Bool
  deriving DecidableEq, Repr

/-- Step 7's chain of independent `if best_direction == k` blocks
(lines 134-187), each assigning all four output lines; a value outside
`-1..7` (unreachable from the loop) leaves the previous outputs. -/
def applyPattern (best : Int) (o : Outputs) : Outputs :=
  let o := if best = -1 then ⟨false, false, false, false⟩ else o
  let o := if best = 0 then ⟨true, false, false, false⟩ else o
  let o := if best = 1 then ⟨false, true, false, false⟩ else o
  let o := if best = 2 then ⟨false, false, true, false⟩ else o
  let o := if best = 3 then ⟨false, false, false, true⟩ else o
  let o := if best = 4 then ⟨true, false, true, false⟩ else o
  let o := if best = 5 then ⟨true, false, false, true⟩ else o
  let o := if best = 6 then ⟨false, true, true, false⟩ else o
  let o := if best = 7 then ⟨false, false, true, true⟩ else o
  o

/-- One full control tick from the four light readings to the selected
direction and the actuator outputs it drives. -/
def orientTick (lights : List ℚ) (o : Outputs) : Nat × Outputs :=
  let net := netOf lights
  let best := bestDirection net
  (best, applyPattern (best : Int) o)

/-- The real-valued candidate directions of §4.4: four axis-aligned unit
vectors followed by the four diagonals with components `±1/√2`. -/
noncomputable def candidatesR : List (ℝ × ℝ) :=
  [ (1, 0), (-1, 0), (0, 1), (0, -1),
    ((Real.sqrt 2)⁻¹, (Real.sqrt 2)⁻¹), ((Real.sqrt 2)⁻¹, -(Real.sqrt 2)⁻¹),
    (-(Real.sqrt 2)⁻¹, (Real.sqrt 2)⁻¹), (-(Real.sqrt 2)⁻¹, -(Real.sqrt 2)⁻¹) ]

/-- Real dot product of the net sun vector with candidate `j`. -/
noncomputable def dotR (net : ℚ × ℚ) (j : Nat) : ℝ :=
  (net.1 : ℝ) * (candidatesR.getD j (0, 0)).1 +
    (net.2 : ℝ) * (candidatesR.getD j (0, 0)).2

/-! ## Angular-velocity acquisition (`data_processes/data_process.py`)

`DataProcess.get_data_imu_av` (lines 72-94).  The loop's blackboard
fields `data_imu_av`, `data_imu_av_magnitude` and the `last_imu_time`
instance attribute form the state; the sequence of iterations is driven
by a list of `(now, sample)` pairs, `now` being the monotonic clock read
at the top of the iteration and `sample` the gyro reading (`none`
embedding a `None` reading).  Times and samples are exact rationals; the
magnitude `(x²+y²+z²) ** 0.5` is the real square root. -/

/-- Blackboard fields owned by the angular-velocity loop plus
`last_imu_time`. -/
structure AvState where
  av : ℚ × ℚ × ℚ
  mag : ℝ
  last : ℚ

/-- The fields as initialized by `DataProcess.__init__` (lines 24-32),
with the construction-time clock `t0`. -/
noncomputable def avInit (t0 : ℚ) : AvState :=
  { av := (0, 0, 0), mag := 0, last := t0 }

/-- The `while self.running` loop of `get_data_imu_av`: each iteration
computes `dt = now - last_imu_time`, updates `last_imu_time`, and then
either returns (ending the coroutine) on a `None` reading, or
accumulates `av[i] += sample[i] * dt` and publishes the Euclidean norm
of the accumulated vector as the magnitude.  `ticks` lists the inputs of
the successive iterations; iterations after a `None` reading never run
because the coroutine has returned. -/
noncomputable def runAv : AvState → List (ℚ × Option (ℚ × ℚ × ℚ)) → AvState
  | s, [] => s
  | s, (now, sample) :: rest =>
      let dt := now - s.last
      let s1 := { s with last := now }
      match sample with
      | none => s1
      | some a =>
          let av2 := (s1.av.1 + a.1 * dt, s1.av.2.1 + a.2.1 * dt,
            s1.av.2.2 + a.2.2 * dt)
          let s2 :=
            { s1 with
              av := av2,
              mag := Real.sqrt (((av2.1 : ℝ)) ^ 2 + ((av2.2.1 : ℝ)) ^ 2 +
                ((av2.2.2 : ℝ)) ^ 2) }
          runAv s2 rest

/-! ## Theorems -/

/-- C1: for every reachable sequencer state, `execute_fsm_step` is a
no-op when the polled `is_done()` is false, and when it is true it
transitions exactly per the §4.2 table, updating only the listed
milestone flag. -/
theorem fsm_step_follows_table (s : FSMState) (_reach : FSMReachable s) :
    execute_fsm_step s false = s ∧
    (s.phase = .bootup →
      execute_fsm_step s true = { s with phase := .detumble }) ∧
    (s.phase = .detumble →
      execute_fsm_step s true = { s with phase := .antennaDeploy }) ∧
    (s.phase = .antennaDeploy →
      execute_fsm_step s true =
        { s with phase := .comms, antennas_deployed := true }) ∧
    (s.phase = .comms → s.payload_deployed = false →
      execute_fsm_step s true = { s with phase := .payloadDeploy }) ∧
    (s.phase = .comms → s.payload_deployed = true →
      execute_fsm_step s true = { s with phase := .orient }) ∧
    (s.phase = .payloadDeploy →
      execute_fsm_step s true =
        { s with phase := .orient, payload_deployed := true }) ∧
    (s.phase = .orient →
      execute_fsm_step s true = { s with phase := .comms }) := by
  refine ⟨rfl, fun hp => ?_, fun hp => ?_, fun hp => ?_, fun hp hpd => ?_,
    fun hp hpd => ?_, fun hp => ?_, fun hp => ?_⟩ <;>
    simp [execute_fsm_step, hp] <;> simp [hpd]

/-- Witness for C1 at the boot state. -/
theorem fsm_step_follows_table_witness :
    execute_fsm_step fsmInit false = fsmInit ∧
    execute_fsm_step fsmInit true = { fsmInit with phase := .detumble } := by
  have h := fsm_step_follows_table fsmInit FSMReachable.init
  exact ⟨h.1, h.2.1 rfl⟩

/-- Invariant of the AntennaDeploy phase body: the burn count is one
exactly when `finished_burn` is set. -/
theorem antennasStep_inv (s : AntennasState) (e : AntEvent)
    (h : s.burns = if s.finished_burn then 1 else 0) :
    (antennasStep s e).burns =
      if (antennasStep s e).finished_burn then 1 else 0 := by
  cases e
  · simp only [antennasStep]
    split_ifs <;> simp_all
  · simpa [antennasStep] using h

/-- The burn-count invariant holds along any event sequence. -/
theorem antennasFold_inv (evs : List AntEvent) (s : AntennasState)
    (h : s.burns = if s.finished_burn then 1 else 0) :
    (evs.foldl antennasStep s).burns =
      if (evs.foldl antennasStep s).finished_burn then 1 else 0 := by
  induction evs generalizing s with
  | nil => exact h
  | cons e rest ih => exact ih (antennasStep s e) (antennasStep_inv s e h)

/-- Once `finished_burn` is set, one step never burns again. -/
theorem antennasStep_fb (s : AntennasState) (e : AntEvent)
    (h : s.finished_burn = true) :
    (antennasStep s e).finished_burn = true ∧
      (antennasStep s e).burns = s.burns := by
  cases e <;> simp only [antennasStep] <;> (try split_ifs) <;> simp_all

/-- `done` is never reset by a loop iteration or by `stop()`. -/
theorem antennasStep_done (s : AntennasState) (e : AntEvent)
    (h : s.done = true) : (antennasStep s e).done = true := by
  cases e <;> simp only [antennasStep] <;> (try split_ifs) <;> simp_all

/-- `finished_burn`, the burn count, and `done` are stable under any
further event sequence once `finished_burn` respectively `done` hold. -/
theorem antennasFold_stable (more : List AntEvent) (s : AntennasState) :
    (s.finished_burn = true →
      (more.foldl antennasStep s).finished_burn = true ∧
        (more.foldl antennasStep s).burns = s.burns) ∧
    (s.done = true → (more.foldl antennasStep s).done = true) := by
  induction more generalizing s with
  | nil => exact ⟨fun h => ⟨h, rfl⟩, fun h => h⟩
  | cons e rest ih =>
      refine ⟨fun h => ?_, fun h => ?_⟩
      · obtain ⟨h1, h2⟩ := antennasStep_fb s e h
        obtain ⟨h3, h4⟩ := (ih (antennasStep s e)).1 h1
        exact ⟨h3, by rw [List.foldl_cons, h4, h2]⟩
      · exact (ih (antennasStep s e)).2 (antennasStep_done s e h)

/-- C2: over every execution of a `StateAntennas` instance — any
interleaving of `run()` loop iterations and `stop()` calls from a fresh
started instance — `burn` is invoked at most once; once `finished_burn`
is true no later iteration burns again (the burn count never changes);
and once `done` is true it never reverts. -/
theorem antennas_burn_at_most_once (evs : List AntEvent) :
    (antennasExec evs).burns ≤ 1 ∧
    ((antennasExec evs).finished_burn = true →
      ∀ more, (antennasExec (evs ++ more)).burns = (antennasExec evs).burns ∧
        (antennasExec (evs ++ more)).finished_burn = true) ∧
    ((antennasExec evs).done = true →
      ∀ more, (antennasExec (evs ++ more)).done = true) := by
  have hinv := antennasFold_inv evs (antennasRunStart antennasInit) rfl
  refine ⟨?_, fun h more => ?_, fun h more => ?_⟩
  · rw [show antennasExec evs = evs.foldl antennasStep
      (antennasRunStart antennasInit) from rfl, hinv]
    split_ifs <;> omega
  · have hs := antennasFold_stable more (antennasExec evs)
    have := hs.1 h
    constructor
    · rw [show antennasExec (evs ++ more) =
        more.foldl antennasStep (antennasExec evs) from
          by simp [antennasExec, List.foldl_append]]
      exact this.2
    · rw [show antennasExec (evs ++ more) =
        more.foldl antennasStep (antennasExec evs) from
          by simp [antennasExec, List.foldl_append]]
      exact this.1
  · have hs := antennasFold_stable more (antennasExec evs)
    rw [show antennasExec (evs ++ more) =
      more.foldl antennasStep (antennasExec evs) from
        by simp [antennasExec, List.foldl_append]]
    exact hs.2 h

/-- Witness for C2: after one loop iteration the burn has happened and
is never repeated by a further iteration. -/
theorem antennas_burn_at_most_once_witness :
    (antennasExec [.tick]).burns ≤ 1 ∧
    (antennasExec ([.tick] ++ [.tick, .stop])).burns =
      (antennasExec [.tick]).burns ∧
    (antennasExec ([.tick] ++ [.tick, .stop])).done = true := by
  have h := antennas_burn_at_most_once [.tick]
  exact ⟨h.1, (h.2.1 (by decide) [.tick, .stop]).1,
    h.2.2 (by decide) [.tick, .stop]⟩

/-- C9: a freshly constructed `StateComms` instance reports itself done
before `run()` has executed any tick, because the constructor
initializes `done = True`. -/
theorem comms_fresh_instance_is_done :
    commsInit.done = true ∧ commsIsDone commsInit = true :=
  ⟨rfl, rfl⟩

/-- C10: `StateComms.stop()` assigns only `running`; the distinct
attribute `_running` that the `run()` loop tests is unchanged, so for an
instance whose `run()` has started the loop condition stays true and the
loop does not exit. -/
theorem comms_stop_does_not_stop_loop (s : CommsState) :
    (commsStop s).running = false ∧
    (commsStop s).runningUnderscore = s.runningUnderscore ∧
    (s.runningUnderscore = true →
      commsLoopCondition (commsStop s) = true) := by
  refine ⟨rfl, rfl, fun h => ?_⟩
  simpa [commsLoopCondition, commsStop] using h

/-- Witness for C10 on a started instance. -/
theorem comms_stop_does_not_stop_loop_witness :
    commsLoopCondition (commsStop (commsRunStart commsInit)) = true := by
  exact (comms_stop_does_not_stop_loop (commsRunStart commsInit)).2.2 rfl

/-- C3: a frame whose password matches neither the override secret nor
the configured secret, or matches the configured secret but carries the
wrong satellite name, is dropped silently: no frame of any kind is sent,
no command is dispatched, and the configuration is unchanged. -/
theorem unauthenticated_silent_drop (oscar : String)
    (parse : String → Option ℚ) (c : ConfigState) (msg : Msg)
    (hOscar : msg.password ≠ some oscar)
    (hAuth : msg.password ≠ some c.super_secret_code ∨
      msg.name ≠ some c.cubesat_name) :
    (listen_for_commands oscar parse c msg).frames = [] ∧
    (listen_for_commands oscar parse c msg).cfg = c ∧
    (listen_for_commands oscar parse c msg).actions = [] := by
  by_cases hp : msg.password = some c.super_secret_code
  · have hname : msg.name ≠ some c.cubesat_name := by
      rcases hAuth with h | h
      · exact absurd hp h
      · exact h
    have hno : ¬(c.super_secret_code = oscar) := fun he =>
      hOscar (by rw [hp, he])
    simp [listen_for_commands, hOscar, hp, hname, hno]
  · simp [listen_for_commands, hOscar, hp]

/-- Witness for C3: a wrong standard password produces zero frames. -/
theorem unauthenticated_silent_drop_witness :
    (listen_for_commands "OSCAR" (fun _ => none)
      { super_secret_code := "secret", cubesat_name := "sat",
        orient_payload_setting := 1, orient_payload_periodic_time := 24,
        file_setting := 1, file_periodic := 24 }
      { password := some "wrong", command := some "reset", args := none,
        name := some "sat" }).frames = [] := by
  exact (unauthenticated_silent_drop "OSCAR" (fun _ => none) _ _
    (by decide) (Or.inl (by decide))).1

/-- C4: `set_orient_payload` with a two-element argument list validates
the two arguments independently: a mode among `"0","1","2"` durably
updates `orient_payload_setting` to `int(mode)` whatever the period is;
a period parsing to a float in `(0, 24]` durably updates
`orient_payload_periodic_time` whatever the mode is; an invalid argument
is logged and leaves its key (in memory and on file) unchanged without
aborting the other; and the result frame summarizing the received
arguments is always sent. -/
theorem set_orient_payload_partial_apply (parse : String → Option ℚ)
    (c : ConfigState) (mode period : String) :
    (mode ∈ (["0", "1", "2"] : List String) →
      (set_orient_payload parse c [mode, period]).1.orient_payload_setting =
        ((mode.toNat?).getD 0 : Int) ∧
      (set_orient_payload parse c [mode, period]).1.file_setting =
        ((mode.toNat?).getD 0 : Int)) ∧
    (mode ∉ (["0", "1", "2"] : List String) →
      (set_orient_payload parse c [mode, period]).1.orient_payload_setting =
        c.orient_payload_setting ∧
      (set_orient_payload parse c [mode, period]).1.file_setting =
        c.file_setting ∧
      "Invalid orient payload setting." ∈
        (set_orient_payload parse c [mode, period]).2.2) ∧
    (∀ q, parse period = some q → 0 < q → q ≤ 24 →
      (set_orient_payload parse c
        [mode, period]).1.orient_payload_periodic_time = q ∧
      (set_orient_payload parse c [mode, period]).1.file_periodic = q) ∧
    (parse period = none →
      (set_orient_payload parse c
        [mode, period]).1.orient_payload_periodic_time =
        c.orient_payload_periodic_time ∧
      (set_orient_payload parse c [mode, period]).1.file_periodic =
        c.file_periodic) ∧
    (∀ q, parse period = some q → ¬(0 < q ∧ q ≤ 24) →
      (set_orient_payload parse c
        [mode, period]).1.orient_payload_periodic_time =
        c.orient_payload_periodic_time ∧
      (set_orient_payload parse c [mode, period]).1.file_periodic =
        c.file_periodic ∧
      "Invalid orient payload periodic time." ∈
        (set_orient_payload parse c [mode, period]).2.2) ∧
    (set_orient_payload parse c [mode, period]).2.1 =
      [Frame.orientResult [mode, period]] := by
  refine ⟨fun hmv => ?_, fun hmv => ?_, fun q hpq h1 h2 => ?_, fun hn => ?_,
    fun q hpq hr => ?_, ?_⟩
  · cases hp : parse period with
    | none => simp [set_orient_payload, update_config, hmv, hp]
    | some q =>
        by_cases hq : 0 < q ∧ q ≤ 24 <;>
          simp [set_orient_payload, update_config, hmv, hp, hq]
  · cases hp : parse period with
    | none => simp [set_orient_payload, update_config, hmv, hp]
    | some q =>
        by_cases hq : 0 < q ∧ q ≤ 24 <;>
          simp [set_orient_payload, update_config, hmv, hp, hq]
  · have hq : 0 < q ∧ q ≤ 24 := ⟨h1, h2⟩
    by_cases hmv : mode ∈ (["0", "1", "2"] : List String) <;>
      simp [set_orient_payload, update_config, hmv, hpq, hq]
  · by_cases hmv : mode ∈ (["0", "1", "2"] : List String) <;>
      simp [set_orient_payload, update_config, hmv, hn]
  · by_cases hmv : mode ∈ (["0", "1", "2"] : List String) <;>
      simp [set_orient_payload, update_config, hmv, hpq, hr]
  · cases hp : parse period with
    | none =>
        by_cases hmv : mode ∈ (["0", "1", "2"] : List String) <;>
          simp [set_orient_payload, update_config, hmv, hp]
    | some q =>
        by_cases hmv : mode ∈ (["0", "1", "2"] : List String) <;>
          by_cases hq : 0 < q ∧ q ≤ 24 <;>
          simp [set_orient_payload, update_config, hmv, hp, hq]

/-- Witness for C4, the spec's own test vector: an invalid mode `"5"`
with a valid period `"12"` still updates the periodic time durably,
leaves the setting untouched, and sends the result frame. -/
theorem set_orient_payload_partial_apply_witness :
    ((set_orient_payload (fun s => if s = "12" then some 12 else none)
      { super_secret_code := "secret", cubesat_name := "sat",
        orient_payload_setting := 1, orient_payload_periodic_time := 24,
        file_setting := 1, file_periodic := 24 }
      ["5", "12"]).1.orient_payload_periodic_time = 12 ∧
      (set_orient_payload (fun s => if s = "12" then some 12 else none)
        { super_secret_code := "secret", cubesat_name := "sat",
          orient_payload_setting := 1, orient_payload_periodic_time := 24,
          file_setting := 1, file_periodic := 24 }
        ["5", "12"]).1.file_periodic = 12) ∧
    (set_orient_payload (fun s => if s = "12" then some 12 else none)
      { super_secret_code := "secret", cubesat_name := "sat",
        orient_payload_setting := 1, orient_payload_periodic_time := 24,
        file_setting := 1, file_periodic := 24 }
      ["5", "12"]).1.orient_payload_setting = 1 ∧
    (set_orient_payload (fun s => if s = "12" then some 12 else none)
      { super_secret_code := "secret", cubesat_name := "sat",
        orient_payload_setting := 1, orient_payload_periodic_time := 24,
        file_setting := 1, file_periodic := 24 }
      ["5", "12"]).2.1 = [Frame.orientResult ["5", "12"]] := by
  have h := set_orient_payload_partial_apply
    (fun s => if s = "12" then some 12 else none)
    { super_secret_code := "secret", cubesat_name := "sat",
      orient_payload_setting := 1, orient_payload_periodic_time := 24,
      file_setting := 1, file_periodic := 24 } "5" "12"
  exact ⟨h.2.2.1 12 (by decide) (by decide) (by decide),
    ((h.2.1 (by decide)).1), h.2.2.2.2.2⟩

/-- Counterexample to C5: with a fault on face 0 only and faces 1-3
reading 5, 7, 9, the tick uses `[0,0,0,0]` — face 1 contributes 0, not
its own successful reading 5, because the single `try` around all four
reads zeroes every face on any one fault. -/
theorem lights_fault_counterexample :
    lightsOf none (some 5) (some 7) (some 9) = [0, 0, 0, 0] ∧
    (lightsOf none (some 5) (some 7) (some 9)).getD 1 0 ≠ 5 := by
  constructor
  · rfl
  · decide

/-- C5 as amended: the readings of a tick are the four sensors' own
values only when all four reads succeed; a fault on any face replaces
all four readings of that tick with 0.0, not just the faulted face. -/
theorem lights_fault_substitution (r0 r1 r2 r3 : Option ℚ) :
    (∀ l0 l1 l2 l3, r0 = some l0 → r1 = some l1 → r2 = some l2 →
      r3 = some l3 → lightsOf r0 r1 r2 r3 = [l0, l1, l2, l3]) ∧
    (r0 = none ∨ r1 = none ∨ r2 = none ∨ r3 = none →
      lightsOf r0 r1 r2 r3 = [0, 0, 0, 0]) := by
  constructor
  · rintro l0 l1 l2 l3 rfl rfl rfl rfl
    rfl
  · intro h
    rcases r0 with _ | l0 <;> rcases r1 with _ | l1 <;>
      rcases r2 with _ | l2 <;> rcases r3 with _ | l3 <;>
      simp_all [lightsOf]

/-- Witness for the amended C5. -/
theorem lights_fault_substitution_witness :
    lightsOf none (some 5) (some 7) (some 9) = [0, 0, 0, 0] ∧
    lightsOf (some 1) (some 5) (some 7) (some 9) = [1, 5, 7, 9] :=
  ⟨(lights_fault_substitution none (some 5) (some 7) (some 9)).2
      (Or.inl rfl),
    (lights_fault_substitution (some 1) (some 5) (some 7) (some 9)).1
      1 5 7 9 rfl rfl rfl rfl⟩

/-- Counterexample to C8: after a `None` reading at t=1, a perfectly
good sample `(1,1,1)` at t=2 is never integrated — the accumulated
vector stays `(0,0,0)` — because the loop body returns on `None`
instead of continuing to the next tick. -/
theorem av_none_stops_loop_counterexample :
    (runAv { av := (0, 0, 0), mag := 0, last := 0 }
      [(1, none), (2, some (1, 1, 1))]).av = (0, 0, 0) ∧
    ((0 : ℚ), (0 : ℚ), (0 : ℚ)) ≠ ((1 : ℚ), (1 : ℚ), (1 : ℚ)) := by
  constructor
  · simp [runAv]
  · decide

/-- C8 as amended: on a successful (non-`None`) sample each component of
the accumulated angular-velocity vector increases by `sample[i] * dt`
with `dt` the elapsed time since the previous tick, and the published
magnitude becomes the Euclidean norm of the accumulated vector; on a
`None` reading the previous values are retained but the acquisition
coroutine returns, so no later tick is processed. -/
theorem av_tick_accumulates (s : AvState) (now : ℚ) (a : ℚ × ℚ × ℚ)
    (ticks : List (ℚ × Option (ℚ × ℚ × ℚ))) :
    (runAv s ((now, some a) :: ticks) =
      runAv
        { av := (s.av.1 + a.1 * (now - s.last),
            s.av.2.1 + a.2.1 * (now - s.last),
            s.av.2.2 + a.2.2 * (now - s.last)),
          mag := Real.sqrt
            (((s.av.1 + a.1 * (now - s.last) : ℚ) : ℝ) ^ 2 +
              ((s.av.2.1 + a.2.1 * (now - s.last) : ℚ) : ℝ) ^ 2 +
              ((s.av.2.2 + a.2.2 * (now - s.last) : ℚ) : ℝ) ^ 2),
          last := now } ticks) ∧
    runAv s ((now, none) :: ticks) = { s with last := now } := by
  constructor <;> simp [runAv]

/-- `toReal` is additive on ℚ[√2] subtraction. -/
theorem Q2.toReal_sub (x y : Q2) :
    (Q2.sub x y).toReal = x.toReal - y.toReal := by
  simp only [Q2.sub, Q2.toReal]
  push_cast
  ring

/-- The decidable negativity test of ℚ[√2] agrees with the real order. -/
theorem Q2.isNeg_iff (x : Q2) : x.isNeg ↔ x.toReal < 0 := by
  obtain ⟨p, q⟩ := x
  have hs0 : (0 : ℝ) < Real.sqrt 2 := Real.sqrt_pos.mpr (by norm_num)
  have hs2 : Real.sqrt 2 ^ 2 = 2 := Real.sq_sqrt (by norm_num)
  simp only [Q2.isNeg, Q2.toReal]
  constructor
  · rintro (⟨hb, ha⟩ | ⟨hb, ha, h2⟩ | ⟨hb, h⟩)
    · have haR : (p : ℝ) < 0 := by exact_mod_cast ha
      simpa [hb] using haR
    · have hbR : (0 : ℝ) < (q : ℝ) := by exact_mod_cast hb
      have haR : (p : ℝ) < 0 := by exact_mod_cast ha
      have h2R : 2 * (q : ℝ) ^ 2 < (p : ℝ) ^ 2 := by exact_mod_cast h2
      by_contra hc
      push_neg at hc
      have hqs : (0 : ℝ) < (q : ℝ) * Real.sqrt 2 := mul_pos hbR hs0
      have hp : (0 : ℝ) ≤ (q : ℝ) * Real.sqrt 2 - (p : ℝ) := by linarith
      nlinarith [mul_nonneg hc hp, hs2, h2R]
    · have hbR : (q : ℝ) < 0 := by exact_mod_cast hb
      have hqs : (0 : ℝ) < -(q : ℝ) * Real.sqrt 2 :=
        mul_pos (by linarith) hs0
      rcases h with ha | h2
      · have haR : (p : ℝ) < 0 := by exact_mod_cast ha
        nlinarith
      · have h2R : (p : ℝ) ^ 2 < 2 * (q : ℝ) ^ 2 := by exact_mod_cast h2
        by_contra hc
        push_neg at hc
        have hp : (0 : ℝ) < (p : ℝ) - (q : ℝ) * Real.sqrt 2 := by linarith
        nlinarith [mul_nonneg hc (le_of_lt hp), hs2, h2R]
  · intro h
    rcases lt_trichotomy q 0 with hb | hb | hb
    · have hbR : (q : ℝ) < 0 := by exact_mod_cast hb
      refine Or.inr (Or.inr ⟨hb, ?_⟩)
      by_cases ha : p < 0
      · exact Or.inl ha
      · refine Or.inr ?_
        have haR : (0 : ℝ) ≤ (p : ℝ) := by
          exact_mod_cast not_lt.mp ha
        have h1 : (0 : ℝ) < -((p : ℝ) + (q : ℝ) * Real.sqrt 2) := by linarith
        have hqs : (0 : ℝ) < -(q : ℝ) * Real.sqrt 2 :=
          mul_pos (by linarith) hs0
        have h2 : (0 : ℝ) < (p : ℝ) - (q : ℝ) * Real.sqrt 2 := by linarith
        have hlt : (p : ℝ) ^ 2 < 2 * (q : ℝ) ^ 2 := by
          nlinarith [mul_pos h1 h2, hs2]
        exact_mod_cast hlt
    · subst hb
      refine Or.inl ⟨rfl, ?_⟩
      have haR : (p : ℝ) < 0 := by simpa using h
      exact_mod_cast haR
    · have hbR : (0 : ℝ) < (q : ℝ) := by exact_mod_cast hb
      have hqs : (0 : ℝ) < (q : ℝ) * Real.sqrt 2 := mul_pos hbR hs0
      have haR : (p : ℝ) < 0 := by linarith
      refine Or.inr (Or.inl ⟨hb, by exact_mod_cast haR, ?_⟩)
      have h1 : (0 : ℝ) < -((p : ℝ) + (q : ℝ) * Real.sqrt 2) := by linarith
      have h2 : (0 : ℝ) < -(p : ℝ) + (q : ℝ) * Real.sqrt 2 := by linarith
      have hlt : 2 * (q : ℝ) ^ 2 < (p : ℝ) ^ 2 := by
        nlinarith [mul_pos h1 h2, hs2]
      exact_mod_cast hlt

/-- The decidable strict order of ℚ[√2] is the real strict order. -/
theorem Q2.lt_iff (x y : Q2) : Q2.lt x y ↔ x.toReal < y.toReal := by
  unfold Q2.lt
  rw [Q2.isNeg_iff, Q2.toReal_sub]
  constructor <;> intro h <;> linarith

/-- Specification of the step-6 maximum search: starting from an
accumulator `(b, some m)`, it either keeps the accumulator (when no
element strictly beats `m`) or returns the position and value of the
first element that strictly exceeds `m` and every later element, i.e.
the first argmax beyond `m`. -/
theorem selectFrom_some_spec (l : List Q2) : ∀ (k b : Nat) (m : Q2),
    (selectFrom l k (b, some m) = (b, some m) ∧
      ∀ j, j < l.length → (l.getD j ⟨0, 0⟩).toReal ≤ m.toReal) ∨
    (∃ j, j < l.length ∧
      selectFrom l k (b, some m) = (k + j, some (l.getD j ⟨0, 0⟩)) ∧
      m.toReal < (l.getD j ⟨0, 0⟩).toReal ∧
      (∀ j2, j2 < j →
        (l.getD j2 ⟨0, 0⟩).toReal < (l.getD j ⟨0, 0⟩).toReal) ∧
      (∀ j2, j2 < l.length →
        (l.getD j2 ⟨0, 0⟩).toReal ≤ (l.getD j ⟨0, 0⟩).toReal)) := by
  induction l with
  | nil =>
      intro k b m
      left
      exact ⟨rfl, fun j hj => absurd hj (by simp)⟩
  | cons d rest ih =>
      intro k b m
      by_cases h : Q2.lt m d
      · have hstep : selectFrom (d :: rest) k (b, some m) =
            selectFrom rest (k + 1) (k, some d) := by
          simp [selectFrom, h]
        have hmd : m.toReal < d.toReal := (Q2.lt_iff m d).mp h
        rcases ih (k + 1) k d with ⟨heq, hmax⟩ | ⟨j, hj, heq, hlt, hpref, hmax⟩
        · right
          refine ⟨0, by simp, ?_, ?_, ?_, ?_⟩
          · rw [hstep, heq]
            simp
          · simpa using hmd
          · intro j2 hj2
            exact absurd hj2 (Nat.not_lt_zero j2)
          · intro j2 hj2
            cases j2 with
            | zero => simp
            | succ j2' =>
                have hj2' : j2' < rest.length := by simpa using hj2
                simpa using hmax j2' hj2'
        · right
          refine ⟨j + 1, by simpa using Nat.succ_lt_succ hj, ?_, ?_, ?_, ?_⟩
          · rw [hstep, heq]
            simp only [List.getD_cons_succ, Prod.mk.injEq]
            exact ⟨by omega, trivial⟩
          · simpa using lt_trans hmd hlt
          · intro j2 hj2
            cases j2 with
            | zero => simpa using hlt
            | succ j2' =>
                have hj2' : j2' < j := by omega
                simpa using hpref j2' hj2'
          · intro j2 hj2
            cases j2 with
            | zero => simpa using le_of_lt hlt
            | succ j2' =>
                have hj2' : j2' < rest.length := by simpa using hj2
                simpa using hmax j2' hj2'
      · have hstep : selectFrom (d :: rest) k (b, some m) =
            selectFrom rest (k + 1) (b, some m) := by
          simp [selectFrom, h]
        have hdm : d.toReal ≤ m.toReal := by
          have hnot : ¬(m.toReal < d.toReal) := fun hc =>
            h ((Q2.lt_iff m d).mpr hc)
          exact not_lt.mp hnot
        rcases ih (k + 1) b m with ⟨heq, hmax⟩ | ⟨j, hj, heq, hlt, hpref, hmax⟩
        · left
          refine ⟨by rw [hstep, heq], ?_⟩
          intro j2 hj2
          cases j2 with
          | zero => simpa using hdm
          | succ j2' =>
              have hj2' : j2' < rest.length := by simpa using hj2
              simpa using hmax j2' hj2'
        · right
          refine ⟨j + 1, by simpa using Nat.succ_lt_succ hj, ?_, ?_, ?_, ?_⟩
          · rw [hstep, heq]
            simp only [List.getD_cons_succ, Prod.mk.injEq]
            exact ⟨by omega, trivial⟩
          · simpa using hlt
          · intro j2 hj2
            cases j2 with
            | zero => simpa using lt_of_le_of_lt hdm hlt
            | succ j2' =>
                have hj2' : j2' < j := by omega
                simpa using hpref j2' hj2'
          · intro j2 hj2
            cases j2 with
            | zero => simpa using le_trans hdm (le_of_lt hlt)
            | succ j2' =>
                have hj2' : j2' < rest.length := by simpa using hj2
                simpa using hmax j2' hj2'

/-- The ℚ[√2]-valued dot products of the tick equal the real dot
products with the §4.4 candidate directions (`±1/√2` diagonals). -/
theorem toReal_dotList (net : ℚ × ℚ) (j : Nat) (hj : j < 8) :
    ((dotList net).getD j ⟨0, 0⟩).toReal = dotR net j := by
  have hne : Real.sqrt 2 ≠ 0 := ne_of_gt (Real.sqrt_pos.mpr (by norm_num))
  have hs2 : Real.sqrt 2 * Real.sqrt 2 = 2 := Real.mul_self_sqrt (by norm_num)
  have hinv : (Real.sqrt 2)⁻¹ = Real.sqrt 2 / 2 := by
    rw [inv_eq_one_div, div_eq_div_iff hne (by norm_num : (2 : ℝ) ≠ 0), hs2]
    norm_num
  interval_cases j <;>
    · simp [dotList, point_vecs, dotQ, Q2.smul, Q2.add, Q2.toReal, dotR,
        candidatesR, hinv]
      try push_cast
      try ring

/-- C7: for every net sun vector, the selected best direction is the
first index — in the fixed candidate order `[1,0], [-1,0], [0,1],
[0,-1]` then the four `±1/√2` diagonals — attaining the maximal real
dot product with the net vector (earlier index on ties); in particular
all-zero light readings yield best direction 0. -/
theorem best_direction_first_max (nx ny : ℚ) :
    bestDirection (nx, ny) < 8 ∧
    (∀ j, j < 8 → dotR (nx, ny) j ≤ dotR (nx, ny) (bestDirection (nx, ny))) ∧
    (∀ j, j < bestDirection (nx, ny) →
      dotR (nx, ny) j < dotR (nx, ny) (bestDirection (nx, ny))) ∧
    bestDirection (netOf [0, 0, 0, 0]) = 0 := by
  have hzero : bestDirection (netOf [0, 0, 0, 0]) = 0 := by
    norm_num [netOf, vector_add, vector_mul_scalar, List.range_succ,
      bestDirection, dotList, point_vecs, dotQ, Q2.smul, Q2.add, selectFrom,
      Q2.lt, Q2.isNeg, Q2.sub]
  set net := ((nx, ny) : ℚ × ℚ) with hnet
  have hbridge : ∀ j, j < 8 →
      ((dotList net).getD j ⟨0, 0⟩).toReal = dotR net j :=
    fun j hj => toReal_dotList net j hj
  have hlen : (dotList net).length = 8 := by simp [dotList, point_vecs]
  rcases hL : dotList net with _ | ⟨d0, rest⟩
  · rw [hL] at hlen
    simp at hlen
  · have hrest : rest.length = 7 := by
      rw [hL] at hlen
      simpa using hlen
    have hsel : bestDirection net = (selectFrom rest 1 (0, some d0)).1 := by
      unfold bestDirection
      rw [hL]
      simp [selectFrom]
    rcases selectFrom_some_spec rest 1 0 d0 with
      ⟨heq, hmax⟩ | ⟨j, hj, heq, hlt, hpref, hmax⟩
    · have hb0 : bestDirection net = 0 := by rw [hsel, heq]
      refine ⟨by omega, ?_, ?_, hzero⟩
      · intro j2 hj2
        rw [hb0, ← hbridge j2 hj2, ← hbridge 0 (by omega), hL]
        cases j2 with
        | zero => simp
        | succ j2' =>
            have hj2' : j2' < rest.length := by omega
            simpa using hmax j2' hj2'
      · intro j2 hj2
        rw [hb0] at hj2
        exact absurd hj2 (Nat.not_lt_zero j2)
    · have hb : bestDirection net = 1 + j := by rw [hsel, heq]
      have hjlen : j < 7 := by omega
      have hval : dotR net (bestDirection net) =
          (rest.getD j ⟨0, 0⟩).toReal := by
        rw [hb, ← hbridge (1 + j) (by omega), hL]
        have h1j : 1 + j = j + 1 := by omega
        rw [h1j]
        simp
      refine ⟨by omega, ?_, ?_, hzero⟩
      · intro j2 hj2
        rw [hval, ← hbridge j2 hj2, hL]
        cases j2 with
        | zero => simpa using le_of_lt hlt
        | succ j2' =>
            have hj2' : j2' < rest.length := by omega
            simpa using hmax j2' hj2'
      · intro j2 hj2
        rw [hb] at hj2
        rw [hval, ← hbridge j2 (by omega), hL]
        cases j2 with
        | zero => simpa using hlt
        | succ j2' =>
            have hj2' : j2' < j := by omega
            simpa using hpref j2' hj2'

/-- Witness for C7: for net vector `(3, 0)`, the dot product of
candidate 1 never exceeds the selected direction's. -/
theorem best_direction_first_max_witness :
    bestDirection (3, 0) < 8 ∧
    dotR (3, 0) 1 ≤ dotR (3, 0) (bestDirection (3, 0)) := by
  have h := best_direction_first_max 3 0
  exact ⟨h.1, h.2.1 1 (by omega)⟩

/-- C6: an Orient tick with light readings `[10, 0, 0, 0]` selects best
direction 0 (+X) and, whatever the previous outputs were, drives
`rx0 = true`, `rx1 = false`, `tx0 = false`, `tx1 = false`. -/
theorem orient_tick_plus_x (o : Outputs) :
    orientTick [10, 0, 0, 0] o =
      (0, { rx0 := true, rx1 := false, tx0 := false, tx1 := false }) := by
  have h1 : netOf [10, 0, 0, 0] = (10, 0) := by
    norm_num [netOf, vector_add, vector_mul_scalar, List.range_succ]
  have h2 : bestDirection (10, 0) = 0 := by
    norm_num [bestDirection, dotList, point_vecs, dotQ, Q2.smul, Q2.add,
      selectFrom, Q2.lt, Q2.isNeg, Q2.sub]
  simp [orientTick, h1, h2, applyPattern]

end OBC
